import Mathlib

/-!
Shallow embedding of the state-reconciliation and identity-resolution core of
the terraform-provider-superset repository (Go), together with proofs about
the frozen claims of its specification.

Modelling conventions:
* Go slices become `List`, Go `int64` becomes `Int`, Go strings become `String`.
* Dynamically decoded JSON objects (`map[string]interface{}`) become structures
  whose fields are `Option`-valued: `none` models a key that is absent or whose
  value fails the Go type assertion (`v, ok := m[k].(T)` with `ok = false`),
  `some v` models a successful assertion.
* Fallible Go functions returning `(T, error)` become `Except String T`; the
  error strings follow the `fmt.Errorf` format strings of the source (quotes
  around interpolated values are dropped; no claim depends on them, while the
  role-delete claim depends on the exact prefix and the `, response: ` suffix,
  which are kept verbatim).
* HTTP calls are modelled by passing the decoded response (or the status code,
  where only the status matters) as an explicit argument, and by counting the
  requests a code path issues where a claim speaks about request counts.
-/

namespace Superset

/-- A role as decoded from the role-listing response (`id`, `name` are typed
struct fields in Go, so they are always present after decoding). -/
structure Role where
  id : Int
  name : String
  deriving Repr, DecidableEq

/-- An entry of the database listing as decoded into `map[string]interface{}`:
every field is optional and `none` models an absent key or a failed type
assertion (e.g. a non-numeric `id`). -/
structure DBEntry where
  id : Option Int
  databaseName : Option String
  sqlalchemyURI : Option String
  extra : Option String
  deriving Repr, DecidableEq

/-- A permission/view-menu catalogue entry as decoded from the
permissions-resources listing (typed struct fields in Go). -/
structure PermResource where
  id : Int
  permissionName : String
  viewMenuName : String
  deriving Repr, DecidableEq

/-- `Client.GetRoleIDByName` (client.go): fetches the role listing and linearly
scans it, returning the ID of the first role whose `Name` equals `roleName`,
and the error `role <name> not found` when no role matches.  The decoded
listing is passed explicitly. -/
def GetRoleIDByName (roles : List Role) (roleName : String) : Except String Int :=
  match roles with
  | [] => .error ("role " ++ roleName ++ " not found")
  | r :: rest =>
    if r.name = roleName then .ok r.id
    else GetRoleIDByName rest roleName

/-- `Client.GetDatabaseIDByName` (client.go): scans the (cached) database
listing; an entry contributes only when its `database_name` is a string equal
to the key and its `id` is numeric; an entry whose name matches but whose id
fails the type assertion is skipped and the scan continues. -/
def GetDatabaseIDByName (dbs : List DBEntry) (databaseName : String) : Except String Int :=
  match dbs with
  | [] => .error ("database with name " ++ databaseName ++ " not found")
  | d :: rest =>
    if d.databaseName = some databaseName then
      match d.id with
      | some i => .ok i
      | none => GetDatabaseIDByName rest databaseName
    else GetDatabaseIDByName rest databaseName

/-- A JSON field of a request payload (key/value, values kept abstract as
strings since only key presence matters to the claims). -/
abbrev JsonField := String × String

/-- The JSON payload produced by marshalling Go struct `DatasetUpdateRequest`
(client.go): tag `table_name` (always emitted), `schema,omitempty` and
`sql,omitempty` (dropped when the string is empty).  The struct deliberately
has no `database` field. -/
def DatasetUpdateRequest.payload (tableName schema sql : String) : List JsonField :=
  [("table_name", tableName)]
    ++ (if schema = "" then [] else [("schema", schema)])
    ++ (if sql = "" then [] else [("sql", sql)])

/-- `Client.UpdateDataset` (client.go) builds a `DatasetUpdateRequest` from its
three string arguments and sends exactly its marshalled payload; this is the
full body of the PUT request. -/
def UpdateDataset.sentPayload (tableName schema sql : String) : List JsonField :=
  DatasetUpdateRequest.payload tableName schema sql

/-- The JSON payload of Go struct `DatasetRequest` used at creation time
(client.go), which does carry the `database` reference. -/
def DatasetRequest.payload (tableName : String) (database : Int) (schema sql : String) :
    List JsonField :=
  [("table_name", tableName), ("database", toString database)]
    ++ (if schema = "" then [] else [("schema", schema)])
    ++ (if sql = "" then [] else [("sql", sql)])

/-- The process-wide database-listing cache (client.go package-level state):
the cached snapshot and the time it was stored.  Go's zero `time.Time` is
modelled as timestamp 0. -/
structure DBCache where
  cache : List DBEntry
  time : Nat
  deriving Repr, DecidableEq

/-- `globalDatabasesCacheTTL = 5 * time.Minute` (client.go); time is modelled
in nanoseconds, matching Go durations (`time.Minute = 60 * 10^9 ns`). -/
def globalDatabasesCacheTTL : Nat := 5 * (60 * 1000000000)

/-- `Client.GetAllDatabases` (client.go), sequential semantics of one call:
under the read lock the cache is valid when it is non-empty and was stored
less than the TTL ago; on a miss the write lock is taken, the same condition
is re-checked (double-checked locking; in this sequential model the re-check
repeats the first test), then the listing is fetched with one request and the
result and a fresh timestamp are stored.  `now` is the current time,
`fetch` the decoded outcome of the single HTTP listing request; the returned
`Nat` counts the listing requests this call performed. -/
def GetAllDatabases (st : DBCache) (now : Nat) (fetch : Except String (List DBEntry)) :
    Except String (List DBEntry) × DBCache × Nat :=
  if 0 < st.cache.length ∧ now - st.time < globalDatabasesCacheTTL then
    (.ok st.cache, st, 0)
  else if 0 < st.cache.length ∧ now - st.time < globalDatabasesCacheTTL then
    (.ok st.cache, st, 0)
  else
    match fetch with
    | .error e => (.error e, st, 1)
    | .ok r => (.ok r, ⟨r, now⟩, 1)

/-- `ClearGlobalDatabaseCache` (client.go): unconditionally empties the cache
(`nil`) and zeroes its timestamp (`time.Time\x7b\x7d`). -/
def ClearGlobalDatabaseCache (_ : DBCache) : DBCache := ⟨[], 0⟩

/-- The decoded meta-database entity (`client.MetaDatabase`), after
`GetMetaDatabase` has patched `Extra` from the list endpoint and parsed
`AllowedDBs` out of the nested `extra` JSON. -/
structure MetaDatabase where
  id : Int
  databaseName : String
  engine : String
  configurationMethod : String
  sqlalchemyURI : String
  exposeInSqllab : Bool
  allowCtas : Bool
  allowCvas : Bool
  allowDml : Bool
  allowRunAsync : Bool
  extra : String
  serverCert : Option String
  isManagedExternally : Bool
  externalURL : Option String
  allowedDBs : List String
  deriving Repr, DecidableEq

/-- The locally tracked state of a meta database
(`metaDatabaseResourceModel`). -/
structure MetaDatabaseState where
  id : Int
  databaseName : String
  sqlalchemyURI : String
  allowedDatabases : List String
  exposeInSqllab : Bool
  allowCtas : Bool
  allowCvas : Bool
  allowDml : Bool
  allowRunAsync : Bool
  isManagedExternally : Bool
  deriving Repr, DecidableEq

/-- The locally tracked state of a role (`roleResourceModel`). -/
structure RoleState where
  id : Int
  name : String
  lastUpdated : String
  deriving Repr, DecidableEq

/-- The locally tracked state of a dataset (`datasetResourceModel`). -/
structure DatasetState where
  id : Int
  tableName : String
  databaseName : String
  schema : String
  sql : String
  deriving Repr, DecidableEq

/-- The dataset GET response body (`result` object) as dynamically decoded:
each field is `none` when the key is absent or its type assertion fails;
`databaseId` models `result.database.id` as a number. -/
structure DatasetJson where
  tableName : Option String
  schema : Option String
  sql : Option String
  databaseId : Option Int
  deriving Repr, DecidableEq

/-- Outcome of a reconciler Read handler: refreshed state, removal of the
tracked resource, or an error diagnostic. -/
inductive ReadResult (σ : Type) where
  | updated (s : σ)
  | removed
  | fail (msg : String)
  deriving Repr, DecidableEq

/-- The state-merge portion of `metaDatabaseResource.Read`: id, name and the
boolean flags are overwritten unconditionally; `sqlalchemy_uri` is overwritten
only when the returned value is non-empty, and `allowed_databases` only when
the returned list is non-empty — otherwise the previously known values are
kept. -/
def metaDatabaseResource.readMerge (state : MetaDatabaseState) (m : MetaDatabase) :
    MetaDatabaseState where
  id := m.id
  databaseName := m.databaseName
  sqlalchemyURI := if m.sqlalchemyURI ≠ "" then m.sqlalchemyURI else state.sqlalchemyURI
  allowedDatabases := if 0 < m.allowedDBs.length then m.allowedDBs else state.allowedDatabases
  exposeInSqllab := m.exposeInSqllab
  allowCtas := m.allowCtas
  allowCvas := m.allowCvas
  allowDml := m.allowDml
  allowRunAsync := m.allowRunAsync
  isManagedExternally := m.isManagedExternally

/-- `metaDatabaseResource.Read`: first `GetMetaDatabase` by the state ID
(`getById` is its decoded outcome); on failure, fall back to
`FindMetaDatabaseByName` (`findByName`); if the fallback also errors, emit a
diagnostic; if it reports the entity absent (`nil, nil`), remove the resource
from state; otherwise merge the fetched entity into state. -/
def metaDatabaseResource.Read (state : MetaDatabaseState)
    (getById : Except String MetaDatabase)
    (findByName : Except String (Option MetaDatabase)) : ReadResult MetaDatabaseState :=
  match getById with
  | .ok m => .updated (metaDatabaseResource.readMerge state m)
  | .error _ =>
    match findByName with
    | .error e => .fail ("Both GetMetaDatabase by ID and FindMetaDatabaseByName failed: " ++ e)
    | .ok none => .removed
    | .ok (some m) => .updated (metaDatabaseResource.readMerge state m)

/-- `roleResource.Read` (role_resource.go): a `GetRole` failure becomes a
diagnostic; on success the state name is set to the returned name
unconditionally (an empty name is only logged as a warning, then written). -/
def roleResource.Read (state : RoleState) (getRole : Except String Role) : ReadResult RoleState :=
  match getRole with
  | .error e => .fail ("Could not read role ID " ++ toString state.id ++ ": " ++ e)
  | .ok role => .updated { state with name := role.name }

/-- `Client.GetDataset` (client.go) as a function of the GET response: 404
yields `dataset with ID <id> not found`, any other non-200 status yields a
fetch error, 200 yields the decoded `result` object. -/
def GetDataset (id : Int) (status : Nat) (body : String) (result : DatasetJson) :
    Except String DatasetJson :=
  if status = 404 then .error ("dataset with ID " ++ toString id ++ " not found")
  else if status ≠ 200 then
    .error ("failed to fetch dataset, status code: " ++ toString status ++ ", response: " ++ body)
  else .ok result

/-- `datasetResource.Read` (dataset resource): a `GetDataset` failure becomes
a diagnostic; on success each field present in the response overwrites state
(an absent field keeps the prior value), and the database name is re-derived
from `result.database.id` via `GetDatabaseNameByID` (`dbNameOf`). -/
def datasetResource.Read (state : DatasetState) (getDs : Except String DatasetJson)
    (dbNameOf : Int → Except String String) : ReadResult DatasetState :=
  match getDs with
  | .error e => .fail ("Could not read dataset ID " ++ toString state.id ++ ": " ++ e)
  | .ok d =>
    let st := { state with
      tableName := d.tableName.getD state.tableName
      schema := d.schema.getD state.schema
      sql := d.sql.getD state.sql }
    match d.databaseId with
    | none => .updated st
    | some dbid =>
      match dbNameOf dbid with
      | .error e => .fail ("Could not get database name: " ++ e)
      | .ok nm => .updated { st with databaseName := nm }

/-- Outcome of a reconciler Delete handler: either the tracked resource is
removed from state with no diagnostic, or an error diagnostic is emitted. -/
inductive DeleteOutcome where
  | removed
  | fail (msg : String)
  deriving Repr, DecidableEq

/-- `Client.DeleteRole` (client.go) as a function of the DELETE response:
any status other than 204 or 200 yields the error
`failed to delete role, status code: <code>, response: <body>`. -/
def DeleteRole (status : Nat) (body : String) : Except String Unit :=
  if status ≠ 204 ∧ status ≠ 200 then
    .error ("failed to delete role, status code: " ++ toString status ++ ", response: " ++ body)
  else .ok ()

/-- `Client.DeleteDataset` (client.go): any status other than 200 or 204
yields `failed to delete dataset, status code: <code>, response: <body>`. -/
def DeleteDataset (status : Nat) (body : String) : Except String Unit :=
  if status ≠ 200 ∧ status ≠ 204 then
    .error ("failed to delete dataset, status code: " ++ toString status ++ ", response: " ++ body)
  else .ok ()

/-- `Client.DeleteDatabase` (client.go), success path of the CSRF preamble:
any status other than 204 or 200 yields
`failed to delete database, status code: <code>, response: <body>`. -/
def DeleteDatabase (status : Nat) (body : String) : Except String Unit :=
  if status ≠ 204 ∧ status ≠ 200 then
    .error ("failed to delete database, status code: " ++ toString status ++ ", response: " ++ body)
  else .ok ()

/-- `Client.DeleteMetaDatabase` (client.go) reuses `DeleteDatabase`. -/
def DeleteMetaDatabase (status : Nat) (body : String) : Except String Unit :=
  DeleteDatabase status body

/-- `roleResource.Delete` (role_resource.go): on a client error it removes the
resource from state only when the error string equals exactly
`failed to delete role, status code: 404`; every other error becomes a
diagnostic. -/
def roleResource.Delete (status : Nat) (body : String) : DeleteOutcome :=
  match DeleteRole status body with
  | .ok _ => .removed
  | .error e =>
    if e = "failed to delete role, status code: 404" then .removed
    else .fail ("DeleteRole failed: " ++ e)

/-- `datasetResource.Delete` (dataset resource): any client error becomes a
diagnostic; there is no 404 special case. -/
def datasetResource.Delete (status : Nat) (body : String) : DeleteOutcome :=
  match DeleteDataset status body with
  | .ok _ => .removed
  | .error e => .fail ("Could not delete dataset, unexpected error: " ++ e)

/-- `databaseResource.Delete` (databases_resource.go): any client error
becomes a diagnostic; there is no 404 special case. -/
def databaseResource.Delete (status : Nat) (body : String) : DeleteOutcome :=
  match DeleteDatabase status body with
  | .ok _ => .removed
  | .error e => .fail ("DeleteDatabase failed: " ++ e)

/-- `metaDatabaseResource.Delete` (meta database resource): any client error
becomes a diagnostic; there is no 404 special case. -/
def metaDatabaseResource.Delete (status : Nat) (body : String) : DeleteOutcome :=
  match DeleteMetaDatabase status body with
  | .ok _ => .removed
  | .error e => .fail ("DeleteMetaDatabase failed: " ++ e)

/-- `Client.FindMetaDatabaseByName` (client.go): scans the database listing for
the first entry whose `database_name` equals the key, whose `sqlalchemy_uri`
equals the marker `superset://` and whose `id` is numeric (an entry failing
any of the checks is skipped); on a hit the full entity is fetched via
`GetMetaDatabase` (`fetch`); with no hit the not-found case is reported as
`ok none` (Go `nil, nil`). -/
def FindMetaDatabaseByName (fetch : Int → Except String MetaDatabase)
    (dbs : List DBEntry) (databaseName : String) : Except String (Option MetaDatabase) :=
  match dbs with
  | [] => .ok none
  | d :: rest =>
    if d.databaseName = some databaseName ∧ d.sqlalchemyURI = some "superset://" then
      match d.id with
      | some i => (fetch i).map some
      | none => FindMetaDatabaseByName fetch rest databaseName
    else FindMetaDatabaseByName fetch rest databaseName

/-- The planned configuration of a meta database as the Create/Update handlers
see it; `none` models a null (or unknown) attribute value. -/
structure MetaDatabasePlan where
  databaseName : String
  sqlalchemyURI : Option String
  exposeInSqllab : Option Bool
  allowCtas : Option Bool
  allowCvas : Option Bool
  allowDml : Option Bool
  allowRunAsync : Option Bool
  isManagedExternally : Option Bool
  allowedDatabases : List String
  deriving Repr, DecidableEq

/-- The `client.MetaDatabase` payload built (identically) in both branches of
`metaDatabaseResource.Create`: engine and configuration method are fixed, the
URI defaults to `superset://`, null booleans get their defaults
(expose_in_sqllab and allow_run_async default true, the rest false), and the
planned allowed databases are carried along.  The Go struct leaves its `ID`
field at its zero value. -/
def metaDatabaseResource.planPayload (plan : MetaDatabasePlan) : MetaDatabase where
  id := 0
  databaseName := plan.databaseName
  engine := "superset"
  configurationMethod := "sqlalchemy_form"
  sqlalchemyURI := plan.sqlalchemyURI.getD "superset://"
  exposeInSqllab := plan.exposeInSqllab.getD true
  allowCtas := plan.allowCtas.getD false
  allowCvas := plan.allowCvas.getD false
  allowDml := plan.allowDml.getD false
  allowRunAsync := plan.allowRunAsync.getD true
  extra := ""
  serverCert := none
  isManagedExternally := plan.isManagedExternally.getD false
  externalURL := none
  allowedDBs := plan.allowedDatabases

/-- A mutating call issued by the meta-database Create handler. -/
inductive MetaDBCall where
  | updateCall (id : Int) (payload : MetaDatabase)
  | createCall (payload : MetaDatabase)
  deriving Repr, DecidableEq

/-- `metaDatabaseResource.Create`: search the listing for an existing meta
database with the planned name and the marker URI; when one is found, issue
`UpdateMetaDatabase` on its ID (adopt) and record that ID in state; only when
none is found issue `CreateMetaDatabase` and record the ID from the create
response.  `updateResult` and `createResult` are the decoded outcomes of
those two HTTP calls; the returned list records the mutating calls issued,
and the `Except` the recorded state ID (or the aborting error). -/
def metaDatabaseResource.Create (plan : MetaDatabasePlan)
    (fetch : Int → Except String MetaDatabase) (listing : List DBEntry)
    (updateResult : Except String Unit) (createResult : Except String Int) :
    List MetaDBCall × Except String Int :=
  match FindMetaDatabaseByName fetch listing plan.databaseName with
  | .error e => ([], .error ("FindMetaDatabaseByName failed: " ++ e))
  | .ok (some existing) =>
    let payload := metaDatabaseResource.planPayload plan
    match updateResult with
    | .error e => ([.updateCall existing.id payload], .error ("UpdateMetaDatabase failed: " ++ e))
    | .ok _ => ([.updateCall existing.id payload], .ok existing.id)
  | .ok none =>
    let payload := metaDatabaseResource.planPayload plan
    match createResult with
    | .error e => ([.createCall payload], .error ("CreateMetaDatabase failed: " ++ e))
    | .ok i => ([.createCall payload], .ok i)

/-- A (permission name, view-menu name) pair as declared in the plan. -/
structure PermPair where
  permission : String
  viewMenu : String
  deriving Repr, DecidableEq

/-- `Client.GetPermissionIDByNameAndView` (client.go): linear scan of the
permissions-resources catalogue for the first entry matching both names. -/
def GetPermissionIDByNameAndView (resources : List PermResource)
    (permissionName viewMenuName : String) : Except String Int :=
  match resources with
  | [] =>
    .error ("permission " ++ permissionName ++ " with view menu " ++ viewMenuName ++ " not found")
  | r :: rest =>
    if r.permissionName = permissionName ∧ r.viewMenuName = viewMenuName then .ok r.id
    else GetPermissionIDByNameAndView rest permissionName viewMenuName

/-- The resolution loop shared by the role-permissions Create and Update
handlers: each planned pair is resolved through the catalogue in order, and
the first failure aborts the whole operation. -/
def resolvePermissionIDs (resources : List PermResource) :
    List PermPair → Except String (List Int)
  | [] => .ok []
  | p :: rest =>
    match GetPermissionIDByNameAndView resources p.permission p.viewMenu with
    | .error e => .error e
    | .ok i =>
      match resolvePermissionIDs resources rest with
      | .error e => .error e
      | .ok is => .ok (i :: is)

/-- Keep the first occurrence of every ID, dropping later duplicates
(`seen` accumulates the IDs already kept). -/
def dedupAcc (seen : List Int) : List Int → List Int
  | [] => []
  | x :: xs => if x ∈ seen then dedupAcc seen xs else x :: dedupAcc (x :: seen) xs

/-- The deduplication the handlers perform via the Go set
`permissionIDs := map[int64]bool`, determinised to first-occurrence order
(the claims only constrain the payload as a set of IDs). -/
def dedupFirst (l : List Int) : List Int := dedupAcc [] l

/-- One bulk replace-all-permissions call
(`Client.UpdateRolePermissions(roleID, permissionIDs)`). -/
structure BulkCall where
  roleID : Int
  permissionViewMenuIds : List Int
  deriving Repr, DecidableEq

/-- `rolePermissionsResource.Update` (role_permissions_resource.go): resolve
the role name, resolve every planned pair to an ID, deduplicate, and issue
one bulk replace call carrying the deduplicated ID list; any resolution
failure aborts before the bulk call.  The returned list records the bulk
calls issued; `bulkResult` is the decoded outcome of that single POST. -/
def rolePermissionsResource.Update (roles : List Role) (resources : List PermResource)
    (planRoleName : String) (planPairs : List PermPair)
    (bulkResult : Except String Unit) : List BulkCall × Except String Unit :=
  match GetRoleIDByName roles planRoleName with
  | .error e => ([], .error ("Could not find role " ++ planRoleName ++ ": " ++ e))
  | .ok roleID =>
    match resolvePermissionIDs resources planPairs with
    | .error e => ([], .error ("Error finding permission ID: " ++ e))
    | .ok ids =>
      let permIDList := dedupFirst ids
      match bulkResult with
      | .error e =>
        ([⟨roleID, permIDList⟩], .error ("Failed to update role permissions: " ++ e))
      | .ok _ => ([⟨roleID, permIDList⟩], .ok ())

/-- `rolePermissionsResource.Create` (role_permissions_resource.go): textually
identical in shape to Update — resolve role, resolve pairs, deduplicate,
one bulk replace call. -/
def rolePermissionsResource.Create (roles : List Role) (resources : List PermResource)
    (planRoleName : String) (planPairs : List PermPair)
    (bulkResult : Except String Unit) : List BulkCall × Except String Unit :=
  match GetRoleIDByName roles planRoleName with
  | .error e => ([], .error ("Could not find role " ++ planRoleName ++ ": " ++ e))
  | .ok roleID =>
    match resolvePermissionIDs resources planPairs with
    | .error e => ([], .error ("Error finding permission ID: " ++ e))
    | .ok ids =>
      let permIDList := dedupFirst ids
      match bulkResult with
      | .error e =>
        ([⟨roleID, permIDList⟩], .error ("Failed to update role permissions: " ++ e))
      | .ok _ => ([⟨roleID, permIDList⟩], .ok ())

/-- `Client.CreateRole` (client.go): first resolve the name via
`GetRoleIDByName` over the current listing; on success return the existing ID
without any POST; otherwise issue the create POST (`post` is its decoded
outcome).  The remote is modelled as registering the created role in the
listing under the returned ID with the requested name (standard REST create
semantics); the `Nat` counts the create POST requests issued. -/
def CreateRole (roles : List Role) (post : Except String Int) (name : String) :
    Except String Int × List Role × Nat :=
  match GetRoleIDByName roles name with
  | .ok id => (.ok id, roles, 0)
  | .error _ =>
    match post with
    | .error e => (.error e, roles, 1)
    | .ok newId => (.ok newId, roles ++ [⟨newId, name⟩], 1)

/-- The `result` object of a `GetDatabaseConnectionByID` response; `none`
models an absent key or failed type assertion. -/
structure ConnDetails where
  sqlalchemyURI : Option String
  databaseName : Option String
  deriving Repr, DecidableEq

/-- A `GetDatabaseConnectionByID` response: the top-level `result` key may be
absent or of the wrong shape. -/
structure ConnResp where
  result : Option ConnDetails
  deriving Repr, DecidableEq

/-- One enriched entry of the `databases` list built by `GetDatabasesInfos`. -/
structure DBInfo where
  id : Int
  databaseName : String
  schemas : List String
  sqlalchemyURI : String
  deriving Repr, DecidableEq

/-- The per-database enrichment step of `Client.GetDatabasesInfos`: fetch the
connection details (`conn`), default an empty URI to `URI not provided` and an
empty name to `Name not provided`, fetch the schema list (`schemasOf`), and
assemble the entry; either fetch error aborts the whole listing. -/
def enrichDatabase (conn : Int → Except String ConnResp)
    (schemasOf : Int → Except String (List String)) (i : Int) : Except String DBInfo :=
  match conn i with
  | .error e => .error e
  | .ok resp =>
    let uri0 := match resp.result with | some r => r.sqlalchemyURI.getD "" | none => ""
    let nm0 := match resp.result with | some r => r.databaseName.getD "" | none => ""
    let uri := if uri0 = "" then "URI not provided" else uri0
    let nm := if nm0 = "" then "Name not provided" else nm0
    match schemasOf i with
    | .error e => .error e
    | .ok ss => .ok ⟨i, nm, ss, uri⟩

/-- The loop body of `Client.GetDatabasesInfos` over the (already truncated)
listing slice: an entry whose `id` fails the numeric type assertion is skipped
silently (`continue`); the others are enriched in listing order. -/
def processDatabases (conn : Int → Except String ConnResp)
    (schemasOf : Int → Except String (List String)) :
    List DBEntry → Except String (List DBInfo)
  | [] => .ok []
  | d :: rest =>
    match d.id with
    | none => processDatabases conn schemasOf rest
    | some i =>
      match enrichDatabase conn schemasOf i with
      | .error e => .error e
      | .ok info =>
        match processDatabases conn schemasOf rest with
        | .error e => .error e
        | .ok infos => .ok (info :: infos)

/-- `Client.GetDatabasesInfos` (client.go): fetch the full listing (through
the cache; passed here as `dbs`), truncate it to its first 100 entries
(`limit := 100`, lowered to the length when shorter), and enrich those.  The
returned list is the value under the `databases` key of the result map. -/
def GetDatabasesInfos (conn : Int → Except String ConnResp)
    (schemasOf : Int → Except String (List String)) (dbs : List DBEntry) :
    Except String (List DBInfo) :=
  processDatabases conn schemasOf (dbs.take 100)

end Superset

namespace Superset

theorem getRoleIDByName_first_match (name : String) (i : Int) :
    ∀ (pre post : List Role), (∀ r ∈ pre, r.name ≠ name) →
      GetRoleIDByName (pre ++ ⟨i, name⟩ :: post) name = .ok i := by
  intro pre post hpre
  induction pre with
  | nil => simp [GetRoleIDByName]
  | cons r rest ih =>
    have hr : r.name ≠ name := hpre r (by simp)
    simp only [List.cons_append, GetRoleIDByName, if_neg hr]
    exact ih fun q hq => hpre q (by simp [hq])

theorem getRoleIDByName_not_found (name : String) :
    ∀ (roles : List Role), (∀ r ∈ roles, r.name ≠ name) →
      GetRoleIDByName roles name = .error ("role " ++ name ++ " not found") := by
  intro roles hroles
  induction roles with
  | nil => rfl
  | cons r rest ih =>
    have hr : r.name ≠ name := hroles r (by simp)
    simp only [GetRoleIDByName, if_neg hr]
    exact ih fun q hq => hroles q (by simp [hq])

theorem getDatabaseIDByName_first_match (name : String) (i : Int) (e : DBEntry) :
    ∀ (pre post : List DBEntry), e.databaseName = some name → e.id = some i →
      (∀ f ∈ pre, f.databaseName ≠ some name) →
      GetDatabaseIDByName (pre ++ e :: post) name = .ok i := by
  intro pre post hname hid hpre
  induction pre with
  | nil => simp [GetDatabaseIDByName, hname, hid]
  | cons f rest ih =>
    have hf : f.databaseName ≠ some name := hpre f (by simp)
    simp only [List.cons_append, GetDatabaseIDByName, if_neg hf]
    exact ih fun q hq => hpre q (by simp [hq])

theorem getDatabaseIDByName_not_found (name : String) :
    ∀ (dbs : List DBEntry), (∀ f ∈ dbs, f.databaseName ≠ some name) →
      GetDatabaseIDByName dbs name = .error ("database with name " ++ name ++ " not found") := by
  intro dbs hdbs
  induction dbs with
  | nil => rfl
  | cons f rest ih =>
    have hf : f.databaseName ≠ some name := hdbs f (by simp)
    simp only [GetDatabaseIDByName, if_neg hf]
    exact ih fun q hq => hdbs q (by simp [hq])

/-- C8: each identity resolver linearly scans the fetched listing and returns
the ID of the first entry whose name equals the requested key, and a not-found
error when no entry matches; this holds for GetRoleIDByName over the role
listing and for GetDatabaseIDByName over the database listing. -/
theorem c8_resolvers_first_match_or_not_found (name : String) (i : Int) :
    (∀ (pre post : List Role), (∀ r ∈ pre, r.name ≠ name) →
        GetRoleIDByName (pre ++ ⟨i, name⟩ :: post) name = .ok i) ∧
    (∀ (roles : List Role), (∀ r ∈ roles, r.name ≠ name) →
        GetRoleIDByName roles name = .error ("role " ++ name ++ " not found")) ∧
    (∀ (e : DBEntry) (pre post : List DBEntry),
        e.databaseName = some name → e.id = some i →
        (∀ f ∈ pre, f.databaseName ≠ some name) →
        GetDatabaseIDByName (pre ++ e :: post) name = .ok i) ∧
    (∀ (dbs : List DBEntry), (∀ f ∈ dbs, f.databaseName ≠ some name) →
        GetDatabaseIDByName dbs name =
          .error ("database with name " ++ name ++ " not found")) :=
  ⟨getRoleIDByName_first_match name i,
   getRoleIDByName_not_found name,
   fun e => getDatabaseIDByName_first_match name i e,
   getDatabaseIDByName_not_found name⟩

/-- Witness for C8 at the example of the spec: the listing holds role Admin
with ID 1; resolving Admin yields 1 and resolving Nope yields the not-found
error; similarly for a one-entry database listing. -/
theorem c8_resolvers_first_match_or_not_found_witness :
    GetRoleIDByName [⟨1, "Admin"⟩] "Admin" = .ok 1 ∧
    GetRoleIDByName [⟨1, "Admin"⟩] "Nope" = .error ("role " ++ "Nope" ++ " not found") ∧
    GetDatabaseIDByName [⟨some 7, some "dwh", some "trino://", none⟩] "dwh" = .ok 7 := by
  refine ⟨?_, ?_, ?_⟩
  · have h := (c8_resolvers_first_match_or_not_found "Admin" 1).1 [] []
    simpa using h (by simp)
  · have h := (c8_resolvers_first_match_or_not_found "Nope" 1).2.1 [⟨1, "Admin"⟩]
    exact h (by decide)
  · have h := (c8_resolvers_first_match_or_not_found "dwh" 7).2.2.1
      ⟨some 7, some "dwh", some "trino://", none⟩ [] []
    simpa using h rfl rfl (by simp)

/-- C6: a GetAllDatabases call while the cache holds a non-empty snapshot
stored less than the 5-minute TTL ago returns the snapshot and performs no
listing request; a call on an empty cache, after TTL expiry, or right after
ClearGlobalDatabaseCache (which unconditionally empties the cache and zeroes
its timestamp) performs exactly one listing request and stores the fetched
result with a fresh timestamp. -/
theorem c6_database_cache_ttl (st : DBCache) (now : Nat)
    (fetch : Except String (List DBEntry)) (r : List DBEntry) :
    (0 < st.cache.length → now - st.time < globalDatabasesCacheTTL →
        GetAllDatabases st now fetch = (.ok st.cache, st, 0)) ∧
    (st.cache = [] ∨ globalDatabasesCacheTTL ≤ now - st.time → fetch = .ok r →
        GetAllDatabases st now fetch = (.ok r, ⟨r, now⟩, 1)) ∧
    (ClearGlobalDatabaseCache st = ⟨[], 0⟩) ∧
    (fetch = .ok r →
        GetAllDatabases (ClearGlobalDatabaseCache st) now fetch = (.ok r, ⟨r, now⟩, 1)) := by
  refine ⟨?_, ?_, rfl, ?_⟩
  · intro hne httl
    simp [GetAllDatabases, hne, httl]
  · intro hmiss hf
    have hcond : ¬(0 < st.cache.length ∧ now - st.time < globalDatabasesCacheTTL) := by
      rcases hmiss with h | h
      · simp [h]
      · intro hc
        exact absurd hc.2 (not_lt.mpr h)
    simp [GetAllDatabases, hcond, hf]
  · intro hf
    simp [GetAllDatabases, ClearGlobalDatabaseCache, hf]

/-- Witness for C6: a concrete warm cache within TTL is served without a
request; a concrete expired cache refetches; a cleared cache refetches. -/
theorem c6_database_cache_ttl_witness :
    GetAllDatabases ⟨[⟨some 1, some "a", none, none⟩], 100⟩ 200 (.ok []) =
      (.ok [⟨some 1, some "a", none, none⟩], ⟨[⟨some 1, some "a", none, none⟩], 100⟩, 0) ∧
    GetAllDatabases ⟨[⟨some 1, some "a", none, none⟩], 0⟩ 300000000000
        (.ok [⟨some 2, some "b", none, none⟩]) =
      (.ok [⟨some 2, some "b", none, none⟩], ⟨[⟨some 2, some "b", none, none⟩], 300000000000⟩, 1) ∧
    GetAllDatabases (ClearGlobalDatabaseCache ⟨[⟨some 1, some "a", none, none⟩], 100⟩) 200
        (.ok [⟨some 3, some "c", none, none⟩]) =
      (.ok [⟨some 3, some "c", none, none⟩], ⟨[⟨some 3, some "c", none, none⟩], 200⟩, 1) := by
  refine ⟨?_, ?_, ?_⟩
  · exact (c6_database_cache_ttl ⟨[⟨some 1, some "a", none, none⟩], 100⟩ 200 (.ok []) []).1
      (by decide) (by decide)
  · exact (c6_database_cache_ttl ⟨[⟨some 1, some "a", none, none⟩], 0⟩ 300000000000
      (.ok [⟨some 2, some "b", none, none⟩]) [⟨some 2, some "b", none, none⟩]).2.1
      (Or.inr (by decide)) rfl
  · exact (c6_database_cache_ttl ⟨[⟨some 1, some "a", none, none⟩], 100⟩ 200
      (.ok [⟨some 3, some "c", none, none⟩]) [⟨some 3, some "c", none, none⟩]).2.2.2 rfl

/-- C1 is violated by the code: on an HTTP 404 (entity already absent, empty
body) every Delete path reports an error instead of succeeding.  The Role
handler does contain a 404-as-success branch, but it compares against
`failed to delete role, status code: 404` while the client always appends
`, response: <body>`, so the branch cannot fire and the 404 surfaces as a
diagnostic; the Dataset, Database and MetaDatabase handlers propagate the 404
error unconditionally. -/
theorem c1_delete_404_reports_error :
    roleResource.Delete 404 "" =
      .fail ("DeleteRole failed: failed to delete role, status code: 404, response: ") ∧
    datasetResource.Delete 404 "" =
      .fail ("Could not delete dataset, unexpected error: " ++
        "failed to delete dataset, status code: 404, response: ") ∧
    databaseResource.Delete 404 "" =
      .fail ("DeleteDatabase failed: failed to delete database, status code: 404, response: ") ∧
    metaDatabaseResource.Delete 404 "" =
      .fail ("DeleteMetaDatabase failed: " ++
        "failed to delete database, status code: 404, response: ") := by
  refine ⟨?_, ?_, ?_, ?_⟩ <;> decide

/-- C7: Dataset Update never touches the database reference: for every update
call the payload consists solely of keys drawn from table_name, schema and sql,
and in particular never contains a database key, so the remote database
reference is unchanged by every Update. -/
theorem c7_dataset_update_omits_database (tableName schema sql : String) :
    (∀ kv ∈ UpdateDataset.sentPayload tableName schema sql,
        kv.1 = "table_name" ∨ kv.1 = "schema" ∨ kv.1 = "sql") ∧
    (∀ kv ∈ UpdateDataset.sentPayload tableName schema sql, kv.1 ≠ "database") := by
  constructor
  · intro kv hkv
    simp only [UpdateDataset.sentPayload, DatasetUpdateRequest.payload, List.mem_append,
      List.mem_singleton] at hkv
    rcases hkv with (h | h) | h
    · left; rw [h]
    · by_cases hs : schema = "" <;> simp [hs] at h
      right; left; rw [h]
    · by_cases hq : sql = "" <;> simp [hq] at h
      right; right; rw [h]
  · intro kv hkv
    simp only [UpdateDataset.sentPayload, DatasetUpdateRequest.payload, List.mem_append,
      List.mem_singleton] at hkv
    rcases hkv with (h | h) | h
    · simp [h]
    · by_cases hs : schema = "" <;> simp [hs] at h
      simp [h]
    · by_cases hq : sql = "" <;> simp [hq] at h
      simp [h]

/-- Counterexample to C2: the Role Read overwrites local state with the value
the API returned even when that value is empty.  With prior state name `v`
and a 200 response whose role name decodes to the empty string, the post-Read
state has name empty, not `v`. -/
theorem c2_role_read_empty_overwrite_counterexample :
    roleResource.Read ⟨1, "v", "ts"⟩ (.ok ⟨1, ""⟩) = .updated ⟨1, "", "ts"⟩ ∧
    roleResource.Read ⟨1, "v", "ts"⟩ (.ok ⟨1, ""⟩) ≠ .updated ⟨1, "v", "ts"⟩ := by
  exact ⟨rfl, by decide⟩

/-- C2 as amended: the preserve-on-empty merge rule holds for the MetaDatabase
Read fields sqlalchemy_uri and allowed_databases (a non-empty returned value
overwrites, an empty one keeps the prior value), while the Role Read
unconditionally overwrites the name with the returned value, empty or not. -/
theorem c2_read_merge_preserves_known_values_amended (state : MetaDatabaseState)
    (m : MetaDatabase) (find : Except String (Option MetaDatabase))
    (rstate : RoleState) (role : Role) :
    (m.sqlalchemyURI = "" →
      (metaDatabaseResource.readMerge state m).sqlalchemyURI = state.sqlalchemyURI) ∧
    (m.sqlalchemyURI ≠ "" →
      (metaDatabaseResource.readMerge state m).sqlalchemyURI = m.sqlalchemyURI) ∧
    (m.allowedDBs = [] →
      (metaDatabaseResource.readMerge state m).allowedDatabases = state.allowedDatabases) ∧
    (m.allowedDBs ≠ [] →
      (metaDatabaseResource.readMerge state m).allowedDatabases = m.allowedDBs) ∧
    (metaDatabaseResource.Read state (.ok m) find =
      .updated (metaDatabaseResource.readMerge state m)) ∧
    (roleResource.Read rstate (.ok role) = .updated { rstate with name := role.name }) := by
  refine ⟨?_, ?_, ?_, ?_, rfl, rfl⟩
  · intro h; simp [metaDatabaseResource.readMerge, h]
  · intro h; simp [metaDatabaseResource.readMerge, h]
  · intro h; simp [metaDatabaseResource.readMerge, h]
  · intro h
    have hl : 0 < m.allowedDBs.length := List.length_pos.mpr h
    simp [metaDatabaseResource.readMerge, hl]

/-- Witness for the amended C2, at two concrete meta-database responses (one
with empty URI and allowed list, one with both non-empty) and one concrete
role response. -/
theorem c2_read_merge_preserves_known_values_amended_witness :
    (metaDatabaseResource.readMerge ⟨9, "meta", "superset://", ["a"], true, false, false, false,
        true, false⟩
      ⟨9, "meta", "superset", "sqlalchemy_form", "", true, false, false, false, true, "", none,
        false, none, []⟩).sqlalchemyURI = "superset://" ∧
    (metaDatabaseResource.readMerge ⟨9, "meta", "superset://", ["a"], true, false, false, false,
        true, false⟩
      ⟨9, "meta", "superset", "sqlalchemy_form", "", true, false, false, false, true, "", none,
        false, none, []⟩).allowedDatabases = ["a"] ∧
    (metaDatabaseResource.readMerge ⟨9, "meta", "superset://", ["a"], true, false, false, false,
        true, false⟩
      ⟨9, "meta", "superset", "sqlalchemy_form", "postgres://h", true, false, false, false, true,
        "", none, false, none, ["b"]⟩).sqlalchemyURI = "postgres://h" ∧
    (metaDatabaseResource.readMerge ⟨9, "meta", "superset://", ["a"], true, false, false, false,
        true, false⟩
      ⟨9, "meta", "superset", "sqlalchemy_form", "postgres://h", true, false, false, false, true,
        "", none, false, none, ["b"]⟩).allowedDatabases = ["b"] ∧
    roleResource.Read ⟨1, "old", "ts"⟩ (.ok ⟨1, "new"⟩) = .updated ⟨1, "new", "ts"⟩ := by
  refine ⟨?_, ?_, ?_, ?_, ?_⟩
  · exact (c2_read_merge_preserves_known_values_amended _ _ (.ok none) ⟨1, "old", "ts"⟩
      ⟨1, "new"⟩).1 rfl
  · exact (c2_read_merge_preserves_known_values_amended _ _ (.ok none) ⟨1, "old", "ts"⟩
      ⟨1, "new"⟩).2.2.1 rfl
  · exact (c2_read_merge_preserves_known_values_amended _ _ (.ok none) ⟨1, "old", "ts"⟩
      ⟨1, "new"⟩).2.1 (by decide)
  · exact (c2_read_merge_preserves_known_values_amended _ _ (.ok none) ⟨1, "old", "ts"⟩
      ⟨1, "new"⟩).2.2.2.1 (by decide)
  · exact (c2_read_merge_preserves_known_values_amended
      ⟨9, "meta", "superset://", ["a"], true, false, false, false, true, false⟩
      ⟨9, "meta", "superset", "sqlalchemy_form", "", true, false, false, false, true, "", none,
        false, none, []⟩ (.ok none) _ _).2.2.2.2.2

/-- Counterexample to C4: on a dataset that is gone remotely (GET returns
404), the Dataset Read emits an error diagnostic instead of removing the
resource from tracked state. -/
theorem c4_dataset_read_not_found_counterexample :
    datasetResource.Read ⟨5, "t1", "db", "", ""⟩
        (GetDataset 5 404 "" ⟨none, none, none, none⟩) (fun _ => .error "unused") =
      .fail ("Could not read dataset ID 5: dataset with ID 5 not found") ∧
    datasetResource.Read ⟨5, "t1", "db", "", ""⟩
        (GetDataset 5 404 "" ⟨none, none, none, none⟩) (fun _ => .error "unused") ≠
      .removed := by
  exact ⟨rfl, by decide⟩

/-- C4 as amended: when the remote entity is gone, the MetaDatabase Read
(whose by-ID fetch fails and whose by-name fallback reports absent) removes
the resource from state without error; the Dataset Read (whose GET yields the
404 not-found error) and the Role Read instead report a read error and do not
remove the resource. -/
theorem c4_read_gone_removes_only_meta_database_amended (state : MetaDatabaseState)
    (gerr : String) (dstate : DatasetState) (e : String)
    (dbNameOf : Int → Except String String) (rstate : RoleState) (re : String)
    (id : Int) (body : String) (result : DatasetJson) :
    (metaDatabaseResource.Read state (.error gerr) (.ok none) = .removed) ∧
    (GetDataset id 404 body result = .error ("dataset with ID " ++ toString id ++ " not found")) ∧
    (datasetResource.Read dstate (.error e) dbNameOf =
      .fail ("Could not read dataset ID " ++ toString dstate.id ++ ": " ++ e)) ∧
    (roleResource.Read rstate (.error re) =
      .fail ("Could not read role ID " ++ toString rstate.id ++ ": " ++ re)) := by
  exact ⟨rfl, by simp [GetDataset], rfl, rfl⟩

theorem findMetaDatabaseByName_first_hit (fetch : Int → Except String MetaDatabase)
    (name : String) (e : DBEntry) (n : Int) (post : List DBEntry)
    (hname : e.databaseName = some name) (huri : e.sqlalchemyURI = some "superset://")
    (hid : e.id = some n) :
    ∀ pre : List DBEntry,
      (∀ f ∈ pre, ¬(f.databaseName = some name ∧ f.sqlalchemyURI = some "superset://" ∧
        f.id ≠ none)) →
      FindMetaDatabaseByName fetch (pre ++ e :: post) name = (fetch n).map some := by
  intro pre hpre
  induction pre with
  | nil => simp [FindMetaDatabaseByName, hname, huri, hid]
  | cons f rest ih =>
    have hf := hpre f (by simp)
    by_cases hmatch : f.databaseName = some name ∧ f.sqlalchemyURI = some "superset://"
    · have hfid : f.id = none := by
        by_contra hne
        exact hf ⟨hmatch.1, hmatch.2, hne⟩
      simp only [List.cons_append, FindMetaDatabaseByName, if_pos hmatch, hfid]
      exact ih fun q hq => hpre q (by simp [hq])
    · simp only [List.cons_append, FindMetaDatabaseByName, if_neg hmatch]
      exact ih fun q hq => hpre q (by simp [hq])

theorem findMetaDatabaseByName_no_hit (fetch : Int → Except String MetaDatabase)
    (name : String) :
    ∀ dbs : List DBEntry,
      (∀ f ∈ dbs, ¬(f.databaseName = some name ∧ f.sqlalchemyURI = some "superset://")) →
      FindMetaDatabaseByName fetch dbs name = .ok none := by
  intro dbs hdbs
  induction dbs with
  | nil => rfl
  | cons f rest ih =>
    have hf := hdbs f (by simp)
    simp only [FindMetaDatabaseByName, if_neg hf]
    exact ih fun q hq => hdbs q (by simp [hq])

/-- C3: when the database listing holds an entry with the planned name and the
marker URI `superset://` whose ID is n (and no earlier full match), Create
fetches it, issues exactly UpdateMetaDatabase(n, plan payload) — no create
call — and records ID n in state; only when no listing entry carries the
planned name with the marker URI does Create issue the create call (and
record the ID of the create response). -/
theorem c3_meta_database_create_adopts_existing (plan : MetaDatabasePlan)
    (fetch : Int → Except String MetaDatabase) (pre post listing : List DBEntry)
    (e : DBEntry) (n newId : Int) (mdb : MetaDatabase)
    (createResult : Except String Int) (updateResult : Except String Unit) :
    (e.databaseName = some plan.databaseName → e.sqlalchemyURI = some "superset://" →
      e.id = some n →
      (∀ f ∈ pre, ¬(f.databaseName = some plan.databaseName ∧
        f.sqlalchemyURI = some "superset://" ∧ f.id ≠ none)) →
      fetch n = .ok mdb → mdb.id = n →
      metaDatabaseResource.Create plan fetch (pre ++ e :: post) (.ok ()) createResult =
        ([.updateCall n (metaDatabaseResource.planPayload plan)], .ok n)) ∧
    ((∀ f ∈ listing, ¬(f.databaseName = some plan.databaseName ∧
        f.sqlalchemyURI = some "superset://")) →
      metaDatabaseResource.Create plan fetch listing updateResult (.ok newId) =
        ([.createCall (metaDatabaseResource.planPayload plan)], .ok newId)) := by
  constructor
  · intro hname huri hid hpre hfetch hmid
    have hfind := findMetaDatabaseByName_first_hit fetch plan.databaseName e n post
      hname huri hid pre hpre
    simp [metaDatabaseResource.Create, hfind, hfetch, Except.map, hmid]
  · intro hnone
    have hfind := findMetaDatabaseByName_no_hit fetch plan.databaseName listing hnone
    simp [metaDatabaseResource.Create, hfind]

/-- Witness for C3 at the spec example: a meta database named X with the
marker URI already exists remotely under ID 42; Create with name X issues
Update(42, …) and records 42; with an empty listing it issues the create
call. -/
theorem c3_meta_database_create_adopts_existing_witness :
    metaDatabaseResource.Create ⟨"X", none, none, none, none, none, none, none, []⟩
        (fun i => .ok ⟨i, "X", "superset", "sqlalchemy_form", "superset://", true, false, false,
          false, true, "", none, false, none, []⟩)
        [⟨some 42, some "X", some "superset://", none⟩] (.ok ()) (.error "unused") =
      ([.updateCall 42 (metaDatabaseResource.planPayload
          ⟨"X", none, none, none, none, none, none, none, []⟩)], .ok 42) ∧
    metaDatabaseResource.Create ⟨"X", none, none, none, none, none, none, none, []⟩
        (fun i => .ok ⟨i, "X", "superset", "sqlalchemy_form", "superset://", true, false, false,
          false, true, "", none, false, none, []⟩)
        [] (.ok ()) (.ok 77) =
      ([.createCall (metaDatabaseResource.planPayload
          ⟨"X", none, none, none, none, none, none, none, []⟩)], .ok 77) := by
  constructor
  · exact (c3_meta_database_create_adopts_existing
      ⟨"X", none, none, none, none, none, none, none, []⟩
      (fun i => .ok ⟨i, "X", "superset", "sqlalchemy_form", "superset://", true, false, false,
        false, true, "", none, false, none, []⟩)
      [] [] [] ⟨some 42, some "X", some "superset://", none⟩ 42 0
      ⟨42, "X", "superset", "sqlalchemy_form", "superset://", true, false, false, false, true,
        "", none, false, none, []⟩
      (.error "unused") (.ok ())).1 rfl rfl rfl (by simp) rfl rfl
  · exact (c3_meta_database_create_adopts_existing
      ⟨"X", none, none, none, none, none, none, none, []⟩
      (fun i => .ok ⟨i, "X", "superset", "sqlalchemy_form", "superset://", true, false, false,
        false, true, "", none, false, none, []⟩)
      [] [] [] ⟨some 42, some "X", some "superset://", none⟩ 42 77
      ⟨42, "X", "superset", "sqlalchemy_form", "superset://", true, false, false, false, true,
        "", none, false, none, []⟩
      (.ok 77) (.ok ())).2 (by simp)

theorem mem_dedupAcc (x : Int) :
    ∀ (l seen : List Int), x ∈ dedupAcc seen l ↔ (x ∈ l ∧ x ∉ seen) := by
  intro l
  induction l with
  | nil => intro seen; simp [dedupAcc]
  | cons a xs ih =>
    intro seen
    by_cases ha : a ∈ seen
    · by_cases hxa : x = a
      · subst hxa; simp [dedupAcc, if_pos ha, ih, ha]
      · simp [dedupAcc, if_pos ha, ih, hxa]
    · by_cases hxa : x = a
      · subst hxa; simp [dedupAcc, if_neg ha, ha]
      · simp [dedupAcc, if_neg ha, ih, hxa]

theorem nodup_dedupAcc : ∀ (l seen : List Int), (dedupAcc seen l).Nodup := by
  intro l
  induction l with
  | nil => intro seen; simp [dedupAcc]
  | cons a xs ih =>
    intro seen
    by_cases ha : a ∈ seen
    · simpa [dedupAcc, ha] using ih seen
    · simp only [dedupAcc, if_neg ha]
      refine List.nodup_cons.mpr ⟨?_, ih _⟩
      intro hmem
      exact ((mem_dedupAcc a xs (a :: seen)).mp hmem).2 (List.mem_cons_self a seen)

theorem resolvePermissionIDs_length (resources : List PermResource) :
    ∀ (ps : List PermPair) (ids : List Int),
      resolvePermissionIDs resources ps = .ok ids → ids.length = ps.length := by
  intro ps
  induction ps with
  | nil =>
    intro ids h
    simp only [resolvePermissionIDs, Except.ok.injEq] at h
    simp [← h]
  | cons p rest ih =>
    intro ids h
    simp only [resolvePermissionIDs] at h
    cases hg : GetPermissionIDByNameAndView resources p.permission p.viewMenu with
    | error e => rw [hg] at h; exact absurd h (by simp)
    | ok i =>
      rw [hg] at h
      cases hr : resolvePermissionIDs resources rest with
      | error e => rw [hr] at h; exact absurd h (by simp)
      | ok is =>
        rw [hr] at h
        simp only [Except.ok.injEq] at h
        simp [← h, ih is hr]

/-- C5: role-permissions Update resolves every planned (permission, view-menu)
pair to an ID, deduplicates, and issues exactly one bulk replace call whose
payload is exactly the set of resolved IDs (no incremental diff); if any pair
fails to resolve, no bulk call is made; Create is identical to Update. -/
theorem c5_role_permissions_full_replace (roles : List Role)
    (resources : List PermResource) (planRoleName : String) (planPairs : List PermPair)
    (bulkResult : Except String Unit) (rid : Int) (ids : List Int) (err : String) :
    (GetRoleIDByName roles planRoleName = .ok rid →
      resolvePermissionIDs resources planPairs = .ok ids →
      (rolePermissionsResource.Update roles resources planRoleName planPairs bulkResult).1 =
          [⟨rid, dedupFirst ids⟩] ∧
        (dedupFirst ids).Nodup ∧
        (∀ x, x ∈ dedupFirst ids ↔ x ∈ ids) ∧
        ids.length = planPairs.length) ∧
    (resolvePermissionIDs resources planPairs = .error err →
      (rolePermissionsResource.Update roles resources planRoleName planPairs bulkResult).1 =
        []) ∧
    (rolePermissionsResource.Create roles resources planRoleName planPairs bulkResult =
      rolePermissionsResource.Update roles resources planRoleName planPairs bulkResult) := by
  refine ⟨?_, ?_, rfl⟩
  · intro hrole hres
    refine ⟨?_, nodup_dedupAcc ids [], ?_, resolvePermissionIDs_length resources planPairs ids hres⟩
    · cases bulkResult with
      | error e => simp [rolePermissionsResource.Update, hrole, hres]
      | ok u => simp [rolePermissionsResource.Update, hrole, hres]
    · intro x
      simpa using mem_dedupAcc x ids []
  · intro hres
    cases hrole : GetRoleIDByName roles planRoleName with
    | error e => simp [rolePermissionsResource.Update, hrole]
    | ok rid0 => simp [rolePermissionsResource.Update, hrole, hres]

/-- Witness for C5: role r resolves to 1, the three planned pairs resolve to
10, 11, 10; the single bulk payload is the deduplicated set, and with
an unresolvable pair no bulk call is issued. -/
theorem c5_role_permissions_full_replace_witness :
    (rolePermissionsResource.Update [⟨1, "r"⟩]
        [⟨10, "read", "menuA"⟩, ⟨11, "read", "menuB"⟩] "r"
        [⟨"read", "menuA"⟩, ⟨"read", "menuB"⟩, ⟨"read", "menuA"⟩] (.ok ())).1 =
      [⟨1, dedupFirst [10, 11, 10]⟩] ∧
    dedupFirst [10, 11, 10] = [10, 11] ∧
    (rolePermissionsResource.Update [⟨1, "r"⟩]
        [⟨10, "read", "menuA"⟩, ⟨11, "read", "menuB"⟩] "r"
        [⟨"read", "menuC"⟩] (.ok ())).1 = [] := by
  refine ⟨?_, by decide, ?_⟩
  · exact ((c5_role_permissions_full_replace [⟨1, "r"⟩]
      [⟨10, "read", "menuA"⟩, ⟨11, "read", "menuB"⟩] "r"
      [⟨"read", "menuA"⟩, ⟨"read", "menuB"⟩, ⟨"read", "menuA"⟩] (.ok ()) 1 [10, 11, 10]
      "unused").1 rfl rfl).1
  · exact (c5_role_permissions_full_replace [⟨1, "r"⟩]
      [⟨10, "read", "menuA"⟩, ⟨11, "read", "menuB"⟩] "r"
      [⟨"read", "menuC"⟩] (.ok ()) 1 []
      ("permission " ++ "read" ++ " with view menu " ++ "menuC" ++ " not found")).2.1 rfl

theorem getRoleIDByName_append_self (name : String) (f : Int) :
    ∀ (roles : List Role) (e : String), GetRoleIDByName roles name = .error e →
      GetRoleIDByName (roles ++ [⟨f, name⟩]) name = .ok f := by
  intro roles
  induction roles with
  | nil => intro e h; simp [GetRoleIDByName]
  | cons r rest ih =>
    intro e h
    by_cases hr : r.name = name
    · rw [GetRoleIDByName, if_pos hr] at h
      exact absurd h (by simp)
    · rw [GetRoleIDByName, if_neg hr] at h
      rw [List.cons_append, GetRoleIDByName, if_neg hr]
      exact ih e h

/-- C9: CreateRole is idempotent on names: when the name already resolves,
the existing ID is returned with no create POST; two successive CreateRole
calls with the same name return the same ID and issue at most one POST in
total. -/
theorem c9_create_role_idempotent (roles : List Role) (post : Except String Int)
    (name : String) (i f1 f2 : Int) :
    (GetRoleIDByName roles name = .ok i → CreateRole roles post name = (.ok i, roles, 0)) ∧
    ((CreateRole (CreateRole roles (.ok f1) name).2.1 (.ok f2) name).1 =
        (CreateRole roles (.ok f1) name).1 ∧
      (CreateRole roles (.ok f1) name).2.2 +
        (CreateRole (CreateRole roles (.ok f1) name).2.1 (.ok f2) name).2.2 ≤ 1) := by
  constructor
  · intro h
    simp [CreateRole, h]
  · cases h : GetRoleIDByName roles name with
    | ok j =>
      simp [CreateRole, h]
    | error e =>
      have hsecond : GetRoleIDByName (roles ++ [⟨f1, name⟩]) name = .ok f1 :=
        getRoleIDByName_append_self name f1 roles e h
      simp [CreateRole, h, hsecond]

/-- Witness for C9: with role Admin already listed under ID 1, CreateRole
returns 1 and issues no POST (the POST outcome is irrelevant); starting from
an empty listing, two calls return the same fresh ID with one POST total. -/
theorem c9_create_role_idempotent_witness :
    CreateRole [⟨1, "Admin"⟩] (.error "unused") "Admin" = (.ok 1, [⟨1, "Admin"⟩], 0) ∧
    (CreateRole (CreateRole [] (.ok 5) "r").2.1 (.ok 6) "r").1 = (CreateRole [] (.ok 5) "r").1 ∧
    (CreateRole [] (.ok 5) "r").2.2 + (CreateRole (CreateRole [] (.ok 5) "r").2.1 (.ok 6) "r").2.2
      ≤ 1 := by
  refine ⟨?_, ?_, ?_⟩
  · exact (c9_create_role_idempotent [⟨1, "Admin"⟩] (.error "unused") "Admin" 1 0 0).1 rfl
  · exact (c9_create_role_idempotent [] (.ok 0) "r" 0 5 6).2.1
  · exact (c9_create_role_idempotent [] (.ok 0) "r" 0 5 6).2.2

theorem enrichDatabase_id (conn : Int → Except String ConnResp)
    (schemasOf : Int → Except String (List String)) (i : Int) (info : DBInfo) :
    enrichDatabase conn schemasOf i = .ok info → info.id = i := by
  unfold enrichDatabase
  cases conn i with
  | error e => simp
  | ok resp =>
    cases schemasOf i with
    | error e => simp
    | ok ss =>
      intro h
      simp only [Except.ok.injEq] at h
      rw [← h]

theorem processDatabases_map_id (conn : Int → Except String ConnResp)
    (schemasOf : Int → Except String (List String)) :
    ∀ (ds : List DBEntry) (l : List DBInfo), processDatabases conn schemasOf ds = .ok l →
      l.map (fun x => x.id) = ds.filterMap (fun d => d.id) := by
  intro ds
  induction ds with
  | nil =>
    intro l h
    simp only [processDatabases, Except.ok.injEq] at h
    simp [← h]
  | cons d rest ih =>
    intro l h
    simp only [processDatabases] at h
    cases hd : d.id with
    | none =>
      rw [hd] at h
      simp [List.filterMap_cons, hd, ih l h]
    | some i =>
      rw [hd] at h
      dsimp only at h
      cases he : enrichDatabase conn schemasOf i with
      | error e => rw [he] at h; exact absurd h (by simp)
      | ok info =>
        rw [he] at h
        cases hp : processDatabases conn schemasOf rest with
        | error e => rw [hp] at h; exact absurd h (by simp)
        | ok infos =>
          rw [hp] at h
          simp only [Except.ok.injEq] at h
          rw [← h]
          simp [List.filterMap_cons, hd, enrichDatabase_id conn schemasOf i info he,
            ih infos hp]

/-- C10: a successful GetDatabasesInfos returns at most 100 enriched entries,
namely exactly the numeric-id entries among the first 100 of the listing in
listing order (entries beyond position 100 and entries with a non-numeric id
are silently omitted); listing entries past the first 100 never influence the
result. -/
theorem c10_databases_infos_first_100_numeric (conn : Int → Except String ConnResp)
    (schemasOf : Int → Except String (List String)) (dbs xs ys : List DBEntry)
    (l : List DBInfo) :
    (GetDatabasesInfos conn schemasOf dbs = .ok l →
      l.length ≤ 100 ∧
      l.map (fun x => x.id) = (dbs.take 100).filterMap (fun d => d.id)) ∧
    (xs.length = 100 →
      GetDatabasesInfos conn schemasOf (xs ++ ys) = GetDatabasesInfos conn schemasOf xs) := by
  constructor
  · intro h
    have hm := processDatabases_map_id conn schemasOf (dbs.take 100) l h
    refine ⟨?_, hm⟩
    have hlen : l.length = ((dbs.take 100).filterMap (fun d => d.id)).length := by
      rw [← hm, List.length_map]
    rw [hlen]
    calc ((dbs.take 100).filterMap (fun d => d.id)).length
        ≤ (dbs.take 100).length := List.length_filterMap_le _ _
      _ ≤ 100 := by simp [List.length_take]
  · intro hx
    unfold GetDatabasesInfos
    rw [List.take_append_of_le_length (by rw [hx])]

/-- Witness for C10: a two-entry listing whose second entry has a non-numeric
id yields one enriched entry with the defaulted name and URI; appending an
entry after a 100-entry listing leaves the result unchanged. -/
theorem c10_databases_infos_first_100_numeric_witness :
    GetDatabasesInfos (fun _ => .ok ⟨none⟩) (fun _ => .ok [])
        [⟨some 7, none, none, none⟩, ⟨none, some "x", none, none⟩] =
      .ok [⟨7, "Name not provided", [], "URI not provided"⟩] ∧
    ([(⟨7, "Name not provided", [], "URI not provided"⟩ : DBInfo)].length ≤ 100 ∧
      [(⟨7, "Name not provided", [], "URI not provided"⟩ : DBInfo)].map (fun x => x.id) =
        (([⟨some 7, none, none, none⟩, ⟨none, some "x", none, none⟩] :
          List DBEntry).take 100).filterMap (fun d => d.id)) ∧
    GetDatabasesInfos (fun _ => .ok ⟨none⟩) (fun _ => .ok [])
        (List.replicate 100 ⟨none, none, none, none⟩ ++ [⟨some 8, none, none, none⟩]) =
      GetDatabasesInfos (fun _ => .ok ⟨none⟩) (fun _ => .ok [])
        (List.replicate 100 ⟨none, none, none, none⟩) := by
  refine ⟨rfl, ?_, ?_⟩
  · exact (c10_databases_infos_first_100_numeric (fun _ => .ok ⟨none⟩) (fun _ => .ok [])
      [⟨some 7, none, none, none⟩, ⟨none, some "x", none, none⟩] [] []
      [⟨7, "Name not provided", [], "URI not provided"⟩]).1 rfl
  · exact (c10_databases_infos_first_100_numeric (fun _ => .ok ⟨none⟩) (fun _ => .ok [])
      [] (List.replicate 100 ⟨none, none, none, none⟩) [⟨some 8, none, none, none⟩] []).2
      (by simp)

end Superset
